import Mathlib

/-!
Identity resolution service — shallow embedding.

This file embeds the `/identify` handler of `src/index.ts` (an Express +
Prisma identity-reconciliation endpoint) as a pure Lean function over an
explicit repository state, and proves the specified properties about it.

Modelling conventions:

* The contact table is a `List Contact` kept in creation order, which is
  also ascending `id` order and ascending `createdAt` order for states
  produced by the service (ids are assigned by auto-increment).  Hence a
  Prisma `findMany` with `orderBy: createdAt asc` is `List.filter`, and a
  `findMany` without `orderBy` returns the same natural order.
* JavaScript string truthiness is modelled by `truthy`: `undefined`/`null`
  (`Option.none`) and the empty string are falsy.
* Each call returns the HTTP-level outcome, the repository after the call,
  and an effect count (number of repository reads and writes performed).
-/

namespace Bitespeed

inductive LinkPrecedence where
  | primary
  | secondary
deriving DecidableEq, Repr

/-- A row of the Contact table (fields used by the handler). `createdAt` is
not stored explicitly: list position in the repository is creation order. -/
structure Contact where
  id : Nat
  email : Option String
  phoneNumber : Option String
  linkPrecedence : LinkPrecedence
  linkedId : Option Nat
deriving DecidableEq, Repr

/-- The contact table, in creation (ascending id / createdAt) order. -/
abbrev Repo := List Contact

/-- The 200-response body of `/identify`. -/
structure ContactResponse where
  primaryContactId : Nat
  emails : List String
  phoneNumbers : List String
  secondaryContactIds : List Nat
deriving DecidableEq, Repr

/-- Outcome of one `/identify` call: 400 validation error, 500 internal
error, or 200 with a consolidated identity. -/
inductive ResolveResult where
  | validationError (msg : String)
  | serverError (msg : String)
  | ok (response : ContactResponse)
deriving DecidableEq, Repr

/-- Count of repository operations performed by one call. -/
structure Effects where
  reads : Nat
  writes : Nat
deriving DecidableEq, Repr

/-- JavaScript truthiness of an optional string: `undefined`/`null` and the
empty string are falsy, every other string is truthy. -/
def truthy : Option String → Bool
  | none => false
  | some s => s != ""

/-- The Step-1 `findMany` predicate: `OR` of an email-equality clause and a
phone-equality clause, each included only when the input field is truthy
(`...(email ? [{ email }] : [])`). -/
def matchesQuery (email phoneNumber : Option String) (c : Contact) : Bool :=
  (truthy email && c.email == email) || (truthy phoneNumber && c.phoneNumber == phoneNumber)

/-- Step 1: all contacts matching the supplied email or phone, ordered by
`createdAt` ascending (= repository order). -/
def matchedContacts (repo : Repo) (email phoneNumber : Option String) : Repo :=
  repo.filter (matchesQuery email phoneNumber)

/-- Largest id present in the table (0 when empty). -/
def maxId (repo : Repo) : Nat :=
  (repo.map Contact.id).foldr max 0

/-- The id Prisma's auto-increment assigns to the next inserted row. -/
def nextId (repo : Repo) : Nat :=
  maxId repo + 1

/-- The Step-3 ternary `c.linkPrecedence === 'primary' ? c.id : c.linkedId`:
a matched contact's own root-candidate id. -/
def rootCandidate (c : Contact) : Option Nat :=
  if c.linkPrecedence = .primary then some c.id else c.linkedId

/-- Step 3: the root-candidate list
`matchedContacts.map(c => c.linkPrecedence === primary ? c.id : c.linkedId).filter(Boolean)`;
`filter(Boolean)` drops `null` and the number `0`. -/
def allLinkedIds (repo : Repo) (email phoneNumber : Option String) : List Nat :=
  (matchedContacts repo email phoneNumber).filterMap fun c =>
    (rootCandidate c).filter (· != 0)

/-- Membership predicate of the Step-4/Step-6 cluster query:
`id = rootPrimaryId OR linkedId = rootPrimaryId`. -/
def inCluster (rootPrimaryId : Nat) (c : Contact) : Bool :=
  c.id == rootPrimaryId || c.linkedId == some rootPrimaryId

/-- Steps 4 and 6: the cluster under a root, in repository order. -/
def clusterOf (repo : Repo) (rootPrimaryId : Nat) : Repo :=
  repo.filter (inCluster rootPrimaryId)

/-- Models `Array.from(new Set(l))`: de-duplication keeping the first occurrence of
each element, preserving encounter order. -/
def jsSetDedup (l : List String) : List String :=
  l.foldl (fun acc x => if x ∈ acc then acc else acc ++ [x]) []

/-- Models `.map(c => field).filter(Boolean)` over optional strings: keeps the
non-null, non-empty values. -/
def truthyStrings (l : List (Option String)) : List String :=
  l.filterMap fun o => o.filter (· != "")

/-- Step 5 guard:
`(email && !existingEmails.includes(email)) || (phoneNumber && !existingPhones.includes(phoneNumber))`. -/
def shouldCreateNewContact (email phoneNumber : Option String) (cluster : Repo) : Bool :=
  (truthy email && !((cluster.map Contact.email).contains email)) ||
  (truthy phoneNumber && !((cluster.map Contact.phoneNumber).contains phoneNumber))

/-- The row inserted by Step 2 (no match): the supplied fields, as given
(an empty string is stored as an empty string, an absent field as null),
with `linkPrecedence = primary`. -/
def newPrimary (repo : Repo) (email phoneNumber : Option String) : Contact :=
  { id := nextId repo, email := email, phoneNumber := phoneNumber
    linkPrecedence := .primary, linkedId := none }

/-- The row inserted by Step 5 (new information): the supplied fields with
`linkPrecedence = secondary` and `linkedId = rootPrimaryId`. -/
def newSecondary (repo : Repo) (email phoneNumber : Option String)
    (rootPrimaryId : Nat) : Contact :=
  { id := nextId repo, email := email, phoneNumber := phoneNumber
    linkPrecedence := .secondary, linkedId := some rootPrimaryId }

/-- Models `email ? [email] : []` as used by the Step-2 response. -/
def suppliedList (o : Option String) : List String :=
  if truthy o then o.toList else []

/-- Step 6 response assembly from the re-fetched cluster. -/
def assembleResponse (cluster : Repo) (rootPrimaryId : Nat) : ContactResponse :=
  { primaryContactId := rootPrimaryId
    emails := jsSetDedup (truthyStrings (cluster.map Contact.email))
    phoneNumbers := jsSetDedup (truthyStrings (cluster.map Contact.phoneNumber))
    secondaryContactIds :=
      (cluster.filter fun c => c.linkPrecedence == .secondary).map Contact.id }

/-- The `/identify` handler, `src/index.ts` lines 29-152, as a pure function
from the request body and the repository state to the outcome, the new
repository state, and the repository reads/writes performed.

Reads counted: Step 1 `findMany`, the Step-3 `findUnique` (whose result
`primaryContact` is never used afterwards in the source), the Step-4
`findMany`, the Step-6 `findMany`.  Writes counted: the `create` of Step 2
or Step 5. -/
def resolve (repo : Repo) (email phoneNumber : Option String) :
    ResolveResult × Repo × Effects :=
  if !truthy email && !truthy phoneNumber then
    (.validationError "Email or phoneNumber is required", repo, ⟨0, 0⟩)
  else if (matchedContacts repo email phoneNumber).isEmpty then
    -- Step 2: no match, create a primary and return immediately.
    (.ok { primaryContactId := nextId repo
           emails := suppliedList email
           phoneNumbers := suppliedList phoneNumber
           secondaryContactIds := [] },
     repo ++ [newPrimary repo email phoneNumber], ⟨1, 1⟩)
  else
    match (allLinkedIds repo email phoneNumber).min? with
    | none =>
      -- `Math.min` of an empty array is `Infinity`; the later `create` with
      -- `linkedId = Infinity` fails the integer-column validation, so the
      -- handler answers 500 having performed three reads and no write.
      (.serverError "Internal server error", repo, ⟨3, 0⟩)
    | some rootPrimaryId =>
      let cluster := clusterOf repo rootPrimaryId
      let shouldCreate := shouldCreateNewContact email phoneNumber cluster
      let repo2 :=
        if shouldCreate then
          repo ++ [newSecondary repo email phoneNumber rootPrimaryId]
        else repo
      (.ok (assembleResponse (clusterOf repo2 rootPrimaryId) rootPrimaryId),
       repo2, ⟨4, if shouldCreate then 1 else 0⟩)

/-- Precondition of a well-formed request: at least one identifier is
(truthily) present. -/
def ValidInput (email phoneNumber : Option String) : Prop :=
  truthy email = true ∨ truthy phoneNumber = true

/-- The data-model invariants of the repository (§3 of the design):
positive ids, strictly increasing in creation order; a primary has no
`linkedId`; a secondary links directly to an older primary that exists. -/
def WF (repo : Repo) : Prop :=
  List.Pairwise (fun a b => a.id < b.id) repo ∧
  ∀ c ∈ repo, 0 < c.id ∧
    (c.linkPrecedence = .primary → c.linkedId = none) ∧
    (c.linkPrecedence = .secondary →
      ∃ p ∈ repo, c.linkedId = some p.id ∧ p.linkPrecedence = .primary ∧ p.id < c.id)

instance (repo : Repo) : Decidable (WF repo) := by
  unfold WF; infer_instance

instance (email phoneNumber : Option String) : Decidable (ValidInput email phoneNumber) := by
  unfold ValidInput; infer_instance

/-- The Step-5 new-information condition, stated as the specification words
it: a supplied (truthy) email absent from the cluster's existing emails, or
a supplied (truthy) phone absent from the cluster's existing phones. -/
def NewInfo (email phoneNumber : Option String) (cluster : Repo) : Prop :=
  (∃ s, email = some s ∧ s ≠ "" ∧ some s ∉ cluster.map Contact.email) ∨
  (∃ s, phoneNumber = some s ∧ s ≠ "" ∧ some s ∉ cluster.map Contact.phoneNumber)

instance (email phoneNumber : Option String) (cluster : Repo) :
    Decidable (NewInfo email phoneNumber cluster) := by
  unfold NewInfo
  cases email <;> cases phoneNumber <;> simp <;> infer_instance

/-! ## Basic lemmas about the embedded operations -/

theorem id_le_maxId {repo : Repo} {c : Contact} (h : c ∈ repo) : c.id ≤ maxId repo := by
  induction repo with
  | nil => cases h
  | cons a l ih =>
    rcases List.mem_cons.mp h with rfl | h'
    · exact Nat.le_max_left _ _
    · exact Nat.le_trans (ih h') (Nat.le_max_right _ _)

theorem id_lt_nextId {repo : Repo} {c : Contact} (h : c ∈ repo) : c.id < nextId repo :=
  Nat.lt_succ_of_le (id_le_maxId h)

theorem WF_linkedId_lt_nextId {repo : Repo} {c : Contact} (hwf : WF repo) (hc : c ∈ repo)
    {j : Nat} (hj : c.linkedId = some j) : j < nextId repo := by
  obtain ⟨-, hall⟩ := hwf
  obtain ⟨-, hprim, hsec⟩ := hall c hc
  cases hlp : c.linkPrecedence with
  | primary => rw [hprim hlp] at hj; cases hj
  | secondary =>
    obtain ⟨p, hp, hpid, -, -⟩ := hsec hlp
    rw [hpid] at hj
    cases hj
    exact id_lt_nextId hp

theorem validation_passes {email phoneNumber : Option String}
    (h : ValidInput email phoneNumber) : (!truthy email && !truthy phoneNumber) = false := by
  rcases h with h | h <;> simp [h]

theorem matchesQuery_self {email phoneNumber : Option String} {c : Contact}
    (he : c.email = email) (hp : c.phoneNumber = phoneNumber)
    (hv : ValidInput email phoneNumber) : matchesQuery email phoneNumber c = true := by
  unfold matchesQuery
  rcases hv with h | h <;> simp [h, he, hp]

theorem matchedContacts_append_sing (repo : Repo) (email phoneNumber : Option String)
    (c : Contact) (hc : matchesQuery email phoneNumber c = true) :
    matchedContacts (repo ++ [c]) email phoneNumber =
      matchedContacts repo email phoneNumber ++ [c] := by
  unfold matchedContacts
  rw [List.filter_append]
  simp [hc]

theorem clusterOf_append_sing_mem (repo : Repo) (r : Nat) (c : Contact)
    (hc : inCluster r c = true) :
    clusterOf (repo ++ [c]) r = clusterOf repo r ++ [c] := by
  unfold clusterOf
  rw [List.filter_append]
  simp [hc]

theorem mem_clusterOf {repo : Repo} {r : Nat} {c : Contact} :
    c ∈ clusterOf repo r ↔ c ∈ repo ∧ inCluster r c = true := by
  unfold clusterOf
  exact List.mem_filter

theorem mem_allLinkedIds_pos {repo : Repo} {email phoneNumber : Option String} {x : Nat}
    (h : x ∈ allLinkedIds repo email phoneNumber) : 0 < x := by
  unfold allLinkedIds at h
  obtain ⟨c, -, hc⟩ := List.mem_filterMap.mp h
  rcases Option.filter_eq_some.mp hc with ⟨-, hx⟩
  have : x ≠ 0 := by simpa using hx
  exact Nat.pos_of_ne_zero this

theorem mem_matchedContacts {repo : Repo} {email phoneNumber : Option String} {c : Contact} :
    c ∈ matchedContacts repo email phoneNumber ↔
      c ∈ repo ∧ matchesQuery email phoneNumber c = true := by
  unfold matchedContacts
  exact List.mem_filter

theorem min?_append_self {l : List Nat} {m : Nat} (h : l.min? = some m) :
    (l ++ [m]).min? = some m := by
  cases l with
  | nil => simp at h
  | cons b bs =>
    rw [List.min?_cons'] at h
    rw [List.cons_append, List.min?_cons', List.foldl_append]
    simp at h ⊢
    omega

theorem allLinkedIds_append_sing (repo : Repo) (email phoneNumber : Option String)
    (c : Contact) (hc : matchesQuery email phoneNumber c = true) :
    allLinkedIds (repo ++ [c]) email phoneNumber =
      allLinkedIds repo email phoneNumber ++
        ((rootCandidate c).filter (· != 0)).toList := by
  unfold allLinkedIds
  rw [matchedContacts_append_sing repo email phoneNumber c hc, List.filterMap_append]
  cases h : (rootCandidate c).filter (· != 0) <;> simp [List.filterMap, h]

/-- Under the invariants, every matched contact contributes a positive
root candidate that is the id of a primary contact in the repository. -/
theorem WF_rootCandidate {repo : Repo} {c : Contact} (hwf : WF repo) (hc : c ∈ repo) :
    ∃ j, rootCandidate c = some j ∧ 0 < j ∧
      ∃ p ∈ repo, p.id = j ∧ p.linkPrecedence = .primary := by
  obtain ⟨-, hall⟩ := hwf
  obtain ⟨hpos, -, hsec⟩ := hall c hc
  unfold rootCandidate
  cases hlp : c.linkPrecedence with
  | primary => exact ⟨c.id, by simp, hpos, c, hc, rfl, hlp⟩
  | secondary =>
    obtain ⟨p, hp, hpid, hpp, -⟩ := hsec hlp
    obtain ⟨hppos, -, -⟩ := hall p hp
    exact ⟨p.id, by simp [hpid], hppos, p, hp, rfl, hpp⟩

theorem allLinkedIds_ne_nil {repo : Repo} {email phoneNumber : Option String}
    (hwf : WF repo) (hm : matchedContacts repo email phoneNumber ≠ []) :
    allLinkedIds repo email phoneNumber ≠ [] := by
  obtain ⟨c, hc⟩ := List.exists_mem_of_ne_nil _ hm
  obtain ⟨hcr, -⟩ := mem_matchedContacts.mp hc
  obtain ⟨j, hj, hjpos, -⟩ := WF_rootCandidate hwf hcr
  have hmem : j ∈ allLinkedIds repo email phoneNumber := by
    unfold allLinkedIds
    refine List.mem_filterMap.mpr ⟨c, hc, ?_⟩
    rw [hj]
    simp [Option.filter]
    omega
  exact List.ne_nil_of_mem hmem

theorem clusterOf_nextId_nil {repo : Repo} (hwf : WF repo) :
    clusterOf repo (nextId repo) = [] := by
  unfold clusterOf
  rw [List.filter_eq_nil_iff]
  intro c hc
  unfold inCluster
  have h1 : c.id ≠ nextId repo := Nat.ne_of_lt (id_lt_nextId hc)
  have h2 : c.linkedId ≠ some (nextId repo) := by
    intro h
    exact absurd (WF_linkedId_lt_nextId hwf hc h) (Nat.lt_irrefl _)
  simp [h1, h2]

/-- A cluster already containing a contact whose fields equal the supplied
ones triggers no Step-5 insertion. -/
theorem shouldCreate_false_of_mem {email phoneNumber : Option String} {cluster : Repo}
    {c : Contact} (hc : c ∈ cluster) (he : c.email = email)
    (hp : c.phoneNumber = phoneNumber) :
    shouldCreateNewContact email phoneNumber cluster = false := by
  unfold shouldCreateNewContact
  have hme : email ∈ cluster.map Contact.email := he ▸ List.mem_map_of_mem Contact.email hc
  have hmp : phoneNumber ∈ cluster.map Contact.phoneNumber :=
    hp ▸ List.mem_map_of_mem Contact.phoneNumber hc
  simp [hme, hmp]

/-- The Step-5 guard agrees with the specification's new-information
condition. -/
theorem shouldCreate_iff_NewInfo (email phoneNumber : Option String) (cluster : Repo) :
    shouldCreateNewContact email phoneNumber cluster = true ↔
      NewInfo email phoneNumber cluster := by
  unfold shouldCreateNewContact NewInfo
  cases email <;> cases phoneNumber <;> simp [truthy]

/-- Membership in `truthyStrings`: exactly the non-null, non-empty values. -/
theorem mem_truthyStrings {l : List (Option String)} {s : String} :
    s ∈ truthyStrings l ↔ some s ∈ l ∧ s ≠ "" := by
  unfold truthyStrings
  rw [List.mem_filterMap]
  constructor
  · rintro ⟨o, ho, hf⟩
    obtain ⟨hmem, hne⟩ := Option.filter_eq_some.mp hf
    rw [Option.mem_def.mp hmem] at ho
    exact ⟨ho, by simpa using hne⟩
  · rintro ⟨ho, hs⟩
    exact ⟨some s, ho, by simp [Option.filter, hs]⟩

theorem truthyStrings_cons_some {s : String} (hs : s ≠ "") (l : List (Option String)) :
    truthyStrings (some s :: l) = s :: truthyStrings l := by
  unfold truthyStrings
  simp [List.filterMap_cons, Option.filter, hs]

/-- One step of the `Set`-insertion fold. -/
theorem jsSetDedup_mem_aux (l : List String) (acc : List String) (x : String) :
    x ∈ l.foldl (fun acc y => if y ∈ acc then acc else acc ++ [y]) acc ↔
      x ∈ acc ∨ x ∈ l := by
  induction l generalizing acc with
  | nil => simp
  | cons a l ih =>
    rw [List.foldl_cons, ih]
    by_cases ha : a ∈ acc
    · simp only [if_pos ha, List.mem_cons]
      constructor
      · rintro (h | h)
        · exact Or.inl h
        · exact Or.inr (Or.inr h)
      · rintro (h | rfl | h)
        · exact Or.inl h
        · exact Or.inl ha
        · exact Or.inr h
    · simp only [if_neg ha, List.mem_append, List.mem_singleton, List.mem_cons]
      tauto

theorem mem_jsSetDedup {l : List String} {x : String} :
    x ∈ jsSetDedup l ↔ x ∈ l := by
  unfold jsSetDedup
  rw [jsSetDedup_mem_aux]
  simp

theorem jsSetDedup_nodup_aux (l : List String) (acc : List String) (hacc : acc.Nodup) :
    (l.foldl (fun acc y => if y ∈ acc then acc else acc ++ [y]) acc).Nodup := by
  induction l generalizing acc with
  | nil => exact hacc
  | cons a l ih =>
    rw [List.foldl_cons]
    by_cases ha : a ∈ acc
    · rw [if_pos ha]; exact ih acc hacc
    · rw [if_neg ha]
      exact ih _ (by simp [List.nodup_append, hacc, ha])

theorem jsSetDedup_nodup (l : List String) : (jsSetDedup l).Nodup :=
  jsSetDedup_nodup_aux l [] List.nodup_nil

theorem jsSetDedup_head_aux (l : List String) (acc : List String) (hacc : acc ≠ []) :
    (l.foldl (fun acc y => if y ∈ acc then acc else acc ++ [y]) acc).head? = acc.head? := by
  induction l generalizing acc with
  | nil => rfl
  | cons a l ih =>
    rw [List.foldl_cons]
    by_cases ha : a ∈ acc
    · rw [if_pos ha]; exact ih acc hacc
    · rw [if_neg ha, ih (acc ++ [a]) (by simp), List.head?_append_of_ne_nil _ hacc]

/-- De-duplication keeps the first-seen element at the head. -/
theorem jsSetDedup_cons_head (s : String) (l : List String) :
    (jsSetDedup (s :: l)).head? = some s := by
  unfold jsSetDedup
  rw [List.foldl_cons]
  simp only [List.not_mem_nil, if_neg (fun h => h), List.nil_append]
  rw [jsSetDedup_head_aux l [s] (by simp)]
  rfl

/-! ## Claim theorems -/

/-- C1: with primaries P1 (id 1, email only) and P2 (id 2, phone only),
resolving both identifiers returns `primaryContactId = 1` but does NOT
demote P2: the handler has no update path, so P2 stays `primary` with no
`linkedId`, and a third (secondary) row is inserted under id 1 instead.
This evaluation exhibits the final repository state in full. -/
theorem c1_merge_keeps_second_primary :
    resolve
        [{ id := 1, email := some "a@x.com", phoneNumber := none,
           linkPrecedence := .primary, linkedId := none },
         { id := 2, email := none, phoneNumber := some "222",
           linkPrecedence := .primary, linkedId := none }]
        (some "a@x.com") (some "222") =
      (.ok { primaryContactId := 1, emails := ["a@x.com"], phoneNumbers := ["222"],
             secondaryContactIds := [3] },
       [{ id := 1, email := some "a@x.com", phoneNumber := none,
          linkPrecedence := .primary, linkedId := none },
        { id := 2, email := none, phoneNumber := some "222",
          linkPrecedence := .primary, linkedId := none },
        { id := 3, email := some "a@x.com", phoneNumber := some "222",
          linkPrecedence := .secondary, linkedId := some 1 }],
       ⟨4, 1⟩) := by
  decide

/-- C3: a request in which both identifiers are (truthily) absent is
rejected with the 400 validation message, the repository is unchanged, and
no repository read or write happens. -/
theorem c3_validation_no_repository_access (repo : Repo) {email phoneNumber : Option String}
    (he : truthy email = false) (hp : truthy phoneNumber = false) :
    resolve repo email phoneNumber =
      (.validationError "Email or phoneNumber is required", repo, ⟨0, 0⟩) := by
  unfold resolve
  simp [he, hp]

theorem c3_witness :
    truthy none = false ∧ truthy none = false ∧
    resolve [] none none =
      (.validationError "Email or phoneNumber is required", [], ⟨0, 0⟩) :=
  ⟨rfl, rfl, c3_validation_no_repository_access [] rfl rfl⟩

/-- C7: on an empty match set the handler inserts exactly one primary row
carrying the supplied fields, performs exactly one read (the match query)
and one write, and answers with the new id, singleton (or empty) identifier
lists, and no secondaries. -/
theorem c7_no_match_creates_primary (repo : Repo) {email phoneNumber : Option String}
    (hv : ValidInput email phoneNumber)
    (hm : matchedContacts repo email phoneNumber = []) :
    resolve repo email phoneNumber =
      (.ok { primaryContactId := nextId repo
             emails := suppliedList email
             phoneNumbers := suppliedList phoneNumber
             secondaryContactIds := [] },
       repo ++ [newPrimary repo email phoneNumber], ⟨1, 1⟩) := by
  unfold resolve
  rw [validation_passes hv]
  simp [hm]

theorem c7_witness :
    ValidInput (some "a@x.com") none ∧
    matchedContacts [] (some "a@x.com") none = [] ∧
    resolve [] (some "a@x.com") none =
      (.ok { primaryContactId := 1, emails := ["a@x.com"], phoneNumbers := [],
             secondaryContactIds := [] },
       [{ id := 1, email := some "a@x.com", phoneNumber := none,
          linkPrecedence := .primary, linkedId := none }],
       ⟨1, 1⟩) :=
  ⟨Or.inl (by decide), rfl,
    (c7_no_match_creates_primary [] (Or.inl (by decide)) rfl).trans (by decide)⟩

/-- C9: an identifier supplied as the empty string is falsy and therefore
treated as absent: email `""` with phone missing, and email `""` with phone
`""`, are both rejected with the 400 validation error with zero repository
accesses, although an email field is syntactically present. -/
theorem c9_empty_string_treated_absent (repo : Repo) :
    resolve repo (some "") none =
      (.validationError "Email or phoneNumber is required", repo, ⟨0, 0⟩) ∧
    resolve repo (some "") (some "") =
      (.validationError "Email or phoneNumber is required", repo, ⟨0, 0⟩) := by
  constructor <;> (unfold resolve; simp [truthy])

/-- C10: no call ever mutates an existing contact row: the post-state is
either the pre-state itself or the pre-state with a single new row appended
(there is no update or demotion path in the handler). -/
theorem c10_no_mutation_insert_only (repo : Repo) (email phoneNumber : Option String) :
    (resolve repo email phoneNumber).2.1 = repo ∨
      ∃ c, (resolve repo email phoneNumber).2.1 = repo ++ [c] := by
  unfold resolve
  split
  · exact Or.inl rfl
  split
  · exact Or.inr ⟨_, rfl⟩
  split
  · exact Or.inl rfl
  · dsimp only
    split
    · exact Or.inr ⟨_, rfl⟩
    · exact Or.inl rfl

/-- C2: a valid call writes at most one row, and the two insertion sites
are mutually exclusive: an empty match set always takes the create-primary
path (Step 2); a non-empty match set can only leave the state unchanged or
append one secondary row (Step 5). -/
theorem c2_at_most_one_insert (repo : Repo) {email phoneNumber : Option String}
    (hv : ValidInput email phoneNumber) :
    (resolve repo email phoneNumber).2.2.writes ≤ 1 ∧
    (resolve repo email phoneNumber).2.1.length ≤ repo.length + 1 ∧
    (matchedContacts repo email phoneNumber = [] →
      (resolve repo email phoneNumber).2.1 = repo ++ [newPrimary repo email phoneNumber]) ∧
    (matchedContacts repo email phoneNumber ≠ [] →
      (resolve repo email phoneNumber).2.1 = repo ∨
        ∃ r, (resolve repo email phoneNumber).2.1 =
          repo ++ [newSecondary repo email phoneNumber r]) := by
  unfold resolve
  rw [validation_passes hv]
  simp only [Bool.false_eq_true, if_false]
  by_cases hm : matchedContacts repo email phoneNumber = []
  · rw [hm]
    simp
  · have hne : (matchedContacts repo email phoneNumber).isEmpty = false := by
      simp [hm]
    rw [hne]
    simp only [Bool.false_eq_true, if_false]
    cases hmin : (allLinkedIds repo email phoneNumber).min? with
    | none => exact ⟨by simp, by simp, fun h => absurd h hm, fun _ => Or.inl (by simp)⟩
    | some root =>
      dsimp only
      by_cases hsc : shouldCreateNewContact email phoneNumber (clusterOf repo root) = true
      · rw [hsc]
        simp only [if_true]
        exact ⟨by simp, by simp, fun h => absurd h hm, fun _ => Or.inr ⟨root, by simp⟩⟩
      · rw [Bool.not_eq_true] at hsc
        rw [hsc]
        simp only [Bool.false_eq_true, if_false]
        exact ⟨by simp, by simp, fun h => absurd h hm, fun _ => Or.inl (by simp)⟩

theorem c2_witness :
    ValidInput (some "a@x.com") none ∧
    ((resolve ([] : Repo) (some "a@x.com") none).2.2.writes ≤ 1 ∧
     (resolve ([] : Repo) (some "a@x.com") none).2.1.length ≤ ([] : Repo).length + 1 ∧
     (matchedContacts ([] : Repo) (some "a@x.com") none = [] →
       (resolve ([] : Repo) (some "a@x.com") none).2.1 =
         ([] : Repo) ++ [newPrimary ([] : Repo) (some "a@x.com") none]) ∧
     (matchedContacts ([] : Repo) (some "a@x.com") none ≠ [] →
       (resolve ([] : Repo) (some "a@x.com") none).2.1 = ([] : Repo) ∨
         ∃ r, (resolve ([] : Repo) (some "a@x.com") none).2.1 =
           ([] : Repo) ++ [newSecondary ([] : Repo) (some "a@x.com") none r])) :=
  ⟨Or.inl (by decide), c2_at_most_one_insert ([] : Repo) (Or.inl (by decide))⟩

theorem filterMap_congr_mem {α β : Type} {f g : α → Option β} :
    ∀ {l : List α}, (∀ a ∈ l, f a = g a) → l.filterMap f = l.filterMap g
  | [], _ => rfl
  | a :: l, h => by
    rw [List.filterMap_cons, List.filterMap_cons, h a (List.mem_cons_self a l),
        filterMap_congr_mem fun b hb => h b (List.mem_cons_of_mem a hb)]

/-- Under the invariants the `filter(Boolean)` in Step 3 drops nothing: the
candidate list is exactly the matched contacts' own root ids. -/
theorem allLinkedIds_eq_rootCandidates {repo : Repo} (hwf : WF repo)
    (email phoneNumber : Option String) :
    allLinkedIds repo email phoneNumber =
      (matchedContacts repo email phoneNumber).filterMap rootCandidate := by
  unfold allLinkedIds
  apply filterMap_congr_mem
  intro c hc
  obtain ⟨hcr, -⟩ := mem_matchedContacts.mp hc
  obtain ⟨j, hj, hjpos, -⟩ := WF_rootCandidate hwf hcr
  have hjne : (j != 0) = true := by simpa using Nat.pos_iff_ne_zero.mp hjpos
  rw [hj]
  simp [Option.filter, hjne]

/-- The minimum root candidate is the id of a primary contact present in
the repository (under the invariants). -/
theorem min_root_is_primary {repo : Repo} {email phoneNumber : Option String} {root : Nat}
    (hwf : WF repo) (hmin : (allLinkedIds repo email phoneNumber).min? = some root) :
    ∃ p ∈ repo, p.id = root ∧ p.linkPrecedence = .primary := by
  have hmem := List.min?_mem (fun a b => min_choice a b) hmin
  unfold allLinkedIds at hmem
  obtain ⟨c, hc, hf⟩ := List.mem_filterMap.mp hmem
  obtain ⟨hcr, -⟩ := mem_matchedContacts.mp hc
  obtain ⟨j, hj, -, p, hp, hpid, hpp⟩ := WF_rootCandidate hwf hcr
  obtain ⟨hmm, -⟩ := Option.filter_eq_some.mp hf
  rw [Option.mem_def, hj] at hmm
  cases hmm
  exact ⟨p, hp, hpid, hpp⟩

/-- A non-empty candidate list has a minimum. -/
theorem exists_min_root {repo : Repo} {email phoneNumber : Option String}
    (hwf : WF repo) (hm : matchedContacts repo email phoneNumber ≠ []) :
    ∃ r, (allLinkedIds repo email phoneNumber).min? = some r := by
  have hne := allLinkedIds_ne_nil hwf hm
  cases h : (allLinkedIds repo email phoneNumber).min? with
  | none => exact absurd (List.min?_eq_none_iff.mp h) hne
  | some r => exact ⟨r, rfl⟩

/-- C5: with a non-empty match set, the returned `primaryContactId` is the
minimum over the matched contacts of (own id if primary, else `linkedId`),
and under the repository invariants that minimum is the id of a primary
contact present in the repository. -/
theorem c5_root_is_min_primary (repo : Repo) {email phoneNumber : Option String}
    (hwf : WF repo) (hv : ValidInput email phoneNumber)
    (hm : matchedContacts repo email phoneNumber ≠ []) :
    ∃ root,
      ((matchedContacts repo email phoneNumber).filterMap rootCandidate).min? = some root ∧
      (∃ resp, (resolve repo email phoneNumber).1 = .ok resp ∧
        resp.primaryContactId = root) ∧
      ∃ p ∈ repo, p.id = root ∧ p.linkPrecedence = .primary := by
  have hal := allLinkedIds_eq_rootCandidates hwf email phoneNumber
  obtain ⟨root, hmin⟩ := exists_min_root hwf hm
  refine ⟨root, by rw [← hal]; exact hmin, ?_, min_root_is_primary hwf hmin⟩
  unfold resolve
  rw [validation_passes hv]
  have hne2 : (matchedContacts repo email phoneNumber).isEmpty = false := by
    simp [hm]
  rw [hne2]
  simp only [Bool.false_eq_true, if_false]
  rw [hmin]
  exact ⟨_, rfl, rfl⟩

theorem c5_witness :
    WF ([{ id := 1, email := some "a", phoneNumber := none,
           linkPrecedence := .primary, linkedId := none },
         { id := 2, email := none, phoneNumber := some "9",
           linkPrecedence := .secondary, linkedId := some 1 }] : Repo) ∧
    ValidInput none (some "9") ∧
    matchedContacts
        ([{ id := 1, email := some "a", phoneNumber := none,
            linkPrecedence := .primary, linkedId := none },
          { id := 2, email := none, phoneNumber := some "9",
            linkPrecedence := .secondary, linkedId := some 1 }] : Repo) none (some "9") ≠ [] ∧
    ∃ root,
      ((matchedContacts
          ([{ id := 1, email := some "a", phoneNumber := none,
              linkPrecedence := .primary, linkedId := none },
            { id := 2, email := none, phoneNumber := some "9",
              linkPrecedence := .secondary, linkedId := some 1 }] : Repo) none
          (some "9")).filterMap rootCandidate).min? = some root ∧
      (∃ resp, (resolve
          ([{ id := 1, email := some "a", phoneNumber := none,
              linkPrecedence := .primary, linkedId := none },
            { id := 2, email := none, phoneNumber := some "9",
              linkPrecedence := .secondary, linkedId := some 1 }] : Repo) none (some "9")).1 =
            .ok resp ∧ resp.primaryContactId = root) ∧
      ∃ p ∈ ([{ id := 1, email := some "a", phoneNumber := none,
                linkPrecedence := .primary, linkedId := none },
              { id := 2, email := none, phoneNumber := some "9",
                linkPrecedence := .secondary, linkedId := some 1 }] : Repo),
        p.id = root ∧ p.linkPrecedence = .primary :=
  ⟨by decide, Or.inr (by decide), by decide,
    c5_root_is_min_primary
      ([{ id := 1, email := some "a", phoneNumber := none,
          linkPrecedence := .primary, linkedId := none },
        { id := 2, email := none, phoneNumber := some "9",
          linkPrecedence := .secondary, linkedId := some 1 }] : Repo)
      (by decide) (Or.inr (by decide)) (by decide)⟩

/-- C6: with a non-empty match set, a new row (with the supplied fields,
`linkPrecedence = secondary`, `linkedId = rootPrimaryId`) is inserted IF AND
ONLY IF the supplied email is truthily present and absent from the cluster's
emails, or the supplied phone is truthily present and absent from the
cluster's phones; when neither is new the state is unchanged and zero
writes happen. -/
theorem c6_new_info_iff (repo : Repo) {email phoneNumber : Option String}
    (hwf : WF repo) (hv : ValidInput email phoneNumber)
    (hm : matchedContacts repo email phoneNumber ≠ []) :
    ∃ root, (allLinkedIds repo email phoneNumber).min? = some root ∧
      ((resolve repo email phoneNumber).2.1 =
          repo ++ [newSecondary repo email phoneNumber root] ↔
        NewInfo email phoneNumber (clusterOf repo root)) ∧
      (¬ NewInfo email phoneNumber (clusterOf repo root) →
        (resolve repo email phoneNumber).2.1 = repo ∧
        (resolve repo email phoneNumber).2.2.writes = 0) := by
  have hne := allLinkedIds_ne_nil hwf hm
  obtain ⟨root, hmin⟩ : ∃ r, (allLinkedIds repo email phoneNumber).min? = some r := by
    cases h : (allLinkedIds repo email phoneNumber).min? with
    | none => exact absurd (List.min?_eq_none_iff.mp h) hne
    | some r => exact ⟨r, rfl⟩
  refine ⟨root, hmin, ?_⟩
  unfold resolve
  rw [validation_passes hv]
  simp only [Bool.false_eq_true, if_false]
  have hne2 : (matchedContacts repo email phoneNumber).isEmpty = false := by
    simp [hm]
  rw [hne2]
  simp only [Bool.false_eq_true, if_false]
  rw [hmin]
  dsimp only
  by_cases hsc : shouldCreateNewContact email phoneNumber (clusterOf repo root) = true
  · rw [hsc]
    simp only [if_true]
    have hni := (shouldCreate_iff_NewInfo email phoneNumber (clusterOf repo root)).mp hsc
    exact ⟨⟨fun _ => hni, fun _ => by trivial⟩, fun h => absurd hni h⟩
  · rw [Bool.not_eq_true] at hsc
    rw [hsc]
    simp only [Bool.false_eq_true, if_false]
    have hni : ¬ NewInfo email phoneNumber (clusterOf repo root) := fun h => by
      rw [(shouldCreate_iff_NewInfo email phoneNumber (clusterOf repo root)).mpr h] at hsc
      cases hsc
    exact ⟨⟨fun habs => absurd (congrArg List.length habs) (by simp),
            fun h => absurd h hni⟩,
           fun _ => ⟨by trivial, by trivial⟩⟩

theorem c6_witness :
    WF ([{ id := 1, email := some "a@x.com", phoneNumber := some "111",
           linkPrecedence := .primary, linkedId := none }] : Repo) ∧
    ValidInput (some "a@x.com") (some "222") ∧
    matchedContacts
        ([{ id := 1, email := some "a@x.com", phoneNumber := some "111",
            linkPrecedence := .primary, linkedId := none }] : Repo)
        (some "a@x.com") (some "222") ≠ [] ∧
    ∃ root,
      (allLinkedIds
          ([{ id := 1, email := some "a@x.com", phoneNumber := some "111",
              linkPrecedence := .primary, linkedId := none }] : Repo)
          (some "a@x.com") (some "222")).min? = some root ∧
      ((resolve
          ([{ id := 1, email := some "a@x.com", phoneNumber := some "111",
              linkPrecedence := .primary, linkedId := none }] : Repo)
          (some "a@x.com") (some "222")).2.1 =
         ([{ id := 1, email := some "a@x.com", phoneNumber := some "111",
             linkPrecedence := .primary, linkedId := none }] : Repo) ++
           [newSecondary
             ([{ id := 1, email := some "a@x.com", phoneNumber := some "111",
                 linkPrecedence := .primary, linkedId := none }] : Repo)
             (some "a@x.com") (some "222") root] ↔
        NewInfo (some "a@x.com") (some "222")
          (clusterOf
            ([{ id := 1, email := some "a@x.com", phoneNumber := some "111",
                linkPrecedence := .primary, linkedId := none }] : Repo) root)) ∧
      (¬ NewInfo (some "a@x.com") (some "222")
          (clusterOf
            ([{ id := 1, email := some "a@x.com", phoneNumber := some "111",
                linkPrecedence := .primary, linkedId := none }] : Repo) root) →
        (resolve
          ([{ id := 1, email := some "a@x.com", phoneNumber := some "111",
              linkPrecedence := .primary, linkedId := none }] : Repo)
          (some "a@x.com") (some "222")).2.1 =
          ([{ id := 1, email := some "a@x.com", phoneNumber := some "111",
              linkPrecedence := .primary, linkedId := none }] : Repo) ∧
        (resolve
          ([{ id := 1, email := some "a@x.com", phoneNumber := some "111",
              linkPrecedence := .primary, linkedId := none }] : Repo)
          (some "a@x.com") (some "222")).2.2.writes = 0) :=
  ⟨by decide, Or.inl (by decide), by decide,
    c6_new_info_iff
      ([{ id := 1, email := some "a@x.com", phoneNumber := some "111",
          linkPrecedence := .primary, linkedId := none }] : Repo)
      (by decide) (Or.inl (by decide)) (by decide)⟩

/-- Closed form of a call with an empty match set (Step 2). -/
theorem resolve_nomatch_eq {repo : Repo} {email phoneNumber : Option String}
    (hv : ValidInput email phoneNumber)
    (hm : matchedContacts repo email phoneNumber = []) :
    resolve repo email phoneNumber =
      (.ok { primaryContactId := nextId repo
             emails := suppliedList email
             phoneNumbers := suppliedList phoneNumber
             secondaryContactIds := [] },
       repo ++ [newPrimary repo email phoneNumber], ⟨1, 1⟩) := by
  unfold resolve
  rw [validation_passes hv]
  simp [hm]

/-- Closed form of a call with a non-empty match set (Steps 3-6). -/
theorem resolve_nonempty_eq {repo : Repo} {email phoneNumber : Option String} {root : Nat}
    (hv : ValidInput email phoneNumber)
    (hm : matchedContacts repo email phoneNumber ≠ [])
    (hmin : (allLinkedIds repo email phoneNumber).min? = some root) :
    resolve repo email phoneNumber =
      (.ok (assembleResponse
          (clusterOf
            (if shouldCreateNewContact email phoneNumber (clusterOf repo root)
             then repo ++ [newSecondary repo email phoneNumber root]
             else repo) root) root),
       (if shouldCreateNewContact email phoneNumber (clusterOf repo root)
        then repo ++ [newSecondary repo email phoneNumber root]
        else repo),
       ⟨4, if shouldCreateNewContact email phoneNumber (clusterOf repo root) then 1 else 0⟩) := by
  unfold resolve
  rw [validation_passes hv]
  have hne2 : (matchedContacts repo email phoneNumber).isEmpty = false := by
    simp [hm]
  rw [hne2]
  simp only [Bool.false_eq_true, if_false]
  rw [hmin]

/-- Inserting the Step-5 secondary row under an existing primary root
preserves the invariants. -/
theorem WF_append_newSecondary {repo : Repo} (hwf : WF repo) {root : Nat}
    (email phoneNumber : Option String) {q : Contact} (hq : q ∈ repo) (hqid : q.id = root)
    (hqp : q.linkPrecedence = .primary) :
    WF (repo ++ [newSecondary repo email phoneNumber root]) := by
  obtain ⟨hpw, hall⟩ := hwf
  constructor
  · rw [List.pairwise_append]
    refine ⟨hpw, List.pairwise_singleton _ _, ?_⟩
    intro a ha b hb
    rw [List.mem_singleton] at hb
    subst hb
    exact id_lt_nextId ha
  · intro c hc
    rcases List.mem_append.mp hc with hc | hc
    · obtain ⟨h1, h2, h3⟩ := hall c hc
      refine ⟨h1, h2, fun hs => ?_⟩
      obtain ⟨p, hp, hrest⟩ := h3 hs
      exact ⟨p, List.mem_append_left _ hp, hrest⟩
    · rw [List.mem_singleton] at hc
      subst hc
      refine ⟨Nat.succ_pos _, ?_, fun _ => ?_⟩
      · intro h
        simp [newSecondary] at h
      refine ⟨q, List.mem_append_left _ hq, ?_, hqp, ?_⟩
      · show some root = some q.id
        rw [hqid]
      · show q.id < nextId repo
        exact id_lt_nextId hq

/-- Every member of a cluster has either the root id or a larger id. -/
theorem clusterOf_mem_root_or_lt {rep : Repo} {root : Nat} (hwf : WF rep)
    {c : Contact} (hc : c ∈ clusterOf rep root) : c.id = root ∨ root < c.id := by
  obtain ⟨hcr, hcl⟩ := mem_clusterOf.mp hc
  unfold inCluster at hcl
  rcases Bool.or_eq_true_iff.mp hcl with h | h
  · exact Or.inl (by simpa using h)
  · have hlink : c.linkedId = some root := by
      simpa using h
    obtain ⟨-, hall⟩ := hwf
    obtain ⟨-, hprim, hsec⟩ := hall c hcr
    cases hlp : c.linkPrecedence with
    | primary => rw [hprim hlp] at hlink; cases hlink
    | secondary =>
      obtain ⟨p, -, hpid, -, hplt⟩ := hsec hlp
      rw [hpid] at hlink
      cases hlink
      exact Or.inr hplt

/-- The first element of the cluster query is the root primary itself. -/
theorem clusterOf_head_primary {rep : Repo} {root : Nat} (hwf : WF rep)
    {p : Contact} (hp : p ∈ rep) (hpid : p.id = root) (hpp : p.linkPrecedence = .primary)
    {x : Contact} (hx : (clusterOf rep root).head? = some x) :
    x.id = root ∧ x.linkPrecedence = .primary := by
  have hpcl : p ∈ clusterOf rep root := by
    refine mem_clusterOf.mpr ⟨hp, ?_⟩
    unfold inCluster
    simp [hpid]
  have hpw : (clusterOf rep root).Pairwise (fun a b => a.id < b.id) :=
    hwf.1.sublist (List.filter_sublist rep)
  cases hcl : clusterOf rep root with
  | nil => rw [hcl] at hx; cases hx
  | cons y ys =>
    rw [hcl] at hx hpcl hpw
    have hyx : y = x := by simpa using hx
    subst hyx
    have hymem : y ∈ clusterOf rep root := by
      rw [hcl]
      exact List.mem_cons_self y ys
    have hyid : y.id = root := by
      rcases List.mem_cons.mp hpcl with rfl | hpys
      · exact hpid
      · have hlt : y.id < p.id := (List.pairwise_cons.mp hpw).1 p hpys
        rcases clusterOf_mem_root_or_lt hwf hymem with h | h
        · exact h
        · rw [hpid] at hlt
          omega
    refine ⟨hyid, ?_⟩
    rcases List.mem_cons.mp hpcl with rfl | hpys
    · exact hpp
    · have hlt : y.id < p.id := (List.pairwise_cons.mp hpw).1 p hpys
      rw [hpid, hyid] at hlt
      omega

/-- What `assembleResponse` returns, characterised field by field. -/
theorem assembleResponse_spec (cluster : Repo) (root : Nat) :
    (assembleResponse cluster root).primaryContactId = root ∧
    (∀ s, s ∈ (assembleResponse cluster root).emails ↔
      some s ∈ cluster.map Contact.email ∧ s ≠ "") ∧
    (assembleResponse cluster root).emails.Nodup ∧
    (∀ s, s ∈ (assembleResponse cluster root).phoneNumbers ↔
      some s ∈ cluster.map Contact.phoneNumber ∧ s ≠ "") ∧
    (assembleResponse cluster root).phoneNumbers.Nodup ∧
    (∀ i, i ∈ (assembleResponse cluster root).secondaryContactIds ↔
      ∃ c ∈ cluster, c.id = i ∧ c.linkPrecedence = .secondary) := by
  unfold assembleResponse
  refine ⟨rfl, ?_, jsSetDedup_nodup _, ?_, jsSetDedup_nodup _, ?_⟩
  · intro s
    rw [mem_jsSetDedup, mem_truthyStrings]
  · intro s
    rw [mem_jsSetDedup, mem_truthyStrings]
  · intro i
    simp only [List.mem_map, List.mem_filter]
    constructor
    · rintro ⟨c, ⟨hc, hsec⟩, rfl⟩
      exact ⟨c, hc, rfl, by simpa using hsec⟩
    · rintro ⟨c, hc, rfl, hsec⟩
      exact ⟨c, ⟨hc, by simpa using hsec⟩, rfl⟩

/-- When the cluster's first contact has a truthy email, that email heads
the assembled email list. -/
theorem assembleResponse_head {cluster : Repo} {root : Nat} {x : Contact}
    (hx : cluster.head? = some x) {s : String} (hs : x.email = some s) (hne : s ≠ "") :
    (assembleResponse cluster root).emails.head? = some s := by
  cases cluster with
  | nil => cases hx
  | cons y ys =>
    obtain rfl : y = x := by simpa using hx
    unfold assembleResponse
    dsimp only
    rw [List.map_cons, hs, truthyStrings_cons_some hne, jsSetDedup_cons_head]

/-- When the cluster's first contact has a truthy phone, that phone heads
the assembled phone list. -/
theorem assembleResponse_head_phone {cluster : Repo} {root : Nat} {x : Contact}
    (hx : cluster.head? = some x) {s : String} (hs : x.phoneNumber = some s) (hne : s ≠ "") :
    (assembleResponse cluster root).phoneNumbers.head? = some s := by
  cases cluster with
  | nil => cases hx
  | cons y ys =>
    obtain rfl : y = x := by simpa using hx
    unfold assembleResponse
    dsimp only
    rw [List.map_cons, hs, truthyStrings_cons_some hne, jsSetDedup_cons_head]

/-- A seen element makes the fold skip all its later occurrences. -/
theorem jsSetDedup_seen_aux (x : String) :
    ∀ (l : List String) (acc : List String), x ∈ acc →
      l.foldl (fun acc y => if y ∈ acc then acc else acc ++ [y]) acc =
        (l.filter (· != x)).foldl (fun acc y => if y ∈ acc then acc else acc ++ [y]) acc
  | [], _, _ => rfl
  | a :: l, acc, hx => by
    by_cases hax : a = x
    · subst hax
      rw [List.foldl_cons, if_pos hx]
      have : ((a :: l).filter (· != a)) = l.filter (· != a) := by
        simp [List.filter_cons]
      rw [this]
      exact jsSetDedup_seen_aux a l acc hx
    · have : ((a :: l).filter (· != x)) = a :: l.filter (· != x) := by
        simp [List.filter_cons, hax]
      rw [this, List.foldl_cons, List.foldl_cons]
      by_cases ha : a ∈ acc
      · rw [if_pos ha]
        exact jsSetDedup_seen_aux x l acc hx
      · rw [if_neg ha]
        exact jsSetDedup_seen_aux x l (acc ++ [a]) (List.mem_append_left _ hx)

/-- An element absent from the remaining input stays at the front of the
accumulator throughout the fold. -/
theorem jsSetDedup_front_aux (x : String) :
    ∀ (l : List String), (∀ y ∈ l, y ≠ x) → ∀ (acc : List String),
      l.foldl (fun acc y => if y ∈ acc then acc else acc ++ [y]) (x :: acc) =
        x :: l.foldl (fun acc y => if y ∈ acc then acc else acc ++ [y]) acc
  | [], _, _ => rfl
  | a :: l, hl, acc => by
    have hax : a ≠ x := hl a (List.mem_cons_self a l)
    have hmem : a ∈ x :: acc ↔ a ∈ acc := by
      simp [List.mem_cons, hax]
    rw [List.foldl_cons, List.foldl_cons]
    by_cases ha : a ∈ acc
    · rw [if_pos (hmem.mpr ha), if_pos ha]
      exact jsSetDedup_front_aux x l (fun y hy => hl y (List.mem_cons_of_mem a hy)) acc
    · rw [if_neg (fun h => ha (hmem.mp h)), if_neg ha]
      have : x :: acc ++ [a] = x :: (acc ++ [a]) := rfl
      rw [this]
      exact jsSetDedup_front_aux x l (fun y hy => hl y (List.mem_cons_of_mem a hy)) (acc ++ [a])

/-- First-seen recursive characterisation of the de-duplication: the first
element of the input comes first, and the rest is de-duplicated after all
later copies of that element are removed. -/
theorem jsSetDedup_cons (x : String) (l : List String) :
    jsSetDedup (x :: l) = x :: jsSetDedup (l.filter (· != x)) := by
  unfold jsSetDedup
  rw [List.foldl_cons]
  simp only [List.not_mem_nil, if_neg (fun h => h), List.nil_append]
  rw [jsSetDedup_seen_aux x l [x] (List.mem_singleton_self x)]
  exact jsSetDedup_front_aux x (l.filter (· != x))
    (fun y hy => by simpa using (List.mem_filter.mp hy).2) []

/-- C8 counterexample: the response's email list is NOT the de-duplicated
list of all non-null emails of the cluster.  A contact whose email is the
empty string `""` (reachable through the API itself: Step 2 stores a falsy
`""` verbatim) has a non-null email, yet `filter(Boolean)` drops it from
the response.  Resolving `{phoneNumber: "111"}` against that one-contact
repository returns `emails = []` although the de-duplicated non-null email
list of the final cluster is `[""]`. -/
theorem c8_counterexample :
    (resolve ([] : Repo) (some "") (some "111")).2.1 =
      ([{ id := 1, email := some "", phoneNumber := some "111",
          linkPrecedence := .primary, linkedId := none }] : Repo) ∧
    WF ([{ id := 1, email := some "", phoneNumber := some "111",
           linkPrecedence := .primary, linkedId := none }] : Repo) ∧
    ValidInput none (some "111") ∧
    matchedContacts
        ([{ id := 1, email := some "", phoneNumber := some "111",
            linkPrecedence := .primary, linkedId := none }] : Repo) none (some "111") ≠ [] ∧
    (resolve
        ([{ id := 1, email := some "", phoneNumber := some "111",
            linkPrecedence := .primary, linkedId := none }] : Repo) none (some "111")).1 =
      .ok { primaryContactId := 1, emails := [], phoneNumbers := ["111"],
            secondaryContactIds := [] } ∧
    jsSetDedup
        ((clusterOf
            (resolve
              ([{ id := 1, email := some "", phoneNumber := some "111",
                  linkPrecedence := .primary, linkedId := none }] : Repo) none
              (some "111")).2.1 1).filterMap Contact.email) = [""] := by
  decide

/-- C8 (amended): with a non-empty match set the response satisfies:
`emails` is exactly `jsSetDedup` (first-seen-order de-duplication, see
`jsSetDedup_cons`) of the non-null, NON-EMPTY emails of the final cluster in
cluster order, hence without duplicates and membership-equal to that set;
`phoneNumbers` is the same for phone numbers; `secondaryContactIds` is
exactly the ids of the cluster members with `linkPrecedence = secondary`;
and the cluster starts with the root primary, so when the primary's email
(resp. phone) is non-null and non-empty it heads the email (resp. phone)
list. -/
theorem c8_response_assembly (repo : Repo) {email phoneNumber : Option String}
    (hwf : WF repo) (hv : ValidInput email phoneNumber)
    (hm : matchedContacts repo email phoneNumber ≠ []) :
    ∃ root resp,
      (resolve repo email phoneNumber).1 = .ok resp ∧
      resp.primaryContactId = root ∧
      resp.emails =
        jsSetDedup (truthyStrings
          ((clusterOf (resolve repo email phoneNumber).2.1 root).map Contact.email)) ∧
      resp.phoneNumbers =
        jsSetDedup (truthyStrings
          ((clusterOf (resolve repo email phoneNumber).2.1 root).map Contact.phoneNumber)) ∧
      (∀ s, s ∈ resp.emails ↔
        some s ∈ (clusterOf (resolve repo email phoneNumber).2.1 root).map Contact.email ∧
          s ≠ "") ∧
      resp.emails.Nodup ∧
      (∀ s, s ∈ resp.phoneNumbers ↔
        some s ∈ (clusterOf (resolve repo email phoneNumber).2.1 root).map
            Contact.phoneNumber ∧ s ≠ "") ∧
      resp.phoneNumbers.Nodup ∧
      (∀ i, i ∈ resp.secondaryContactIds ↔
        ∃ c ∈ clusterOf (resolve repo email phoneNumber).2.1 root,
          c.id = i ∧ c.linkPrecedence = .secondary) ∧
      (∀ x, (clusterOf (resolve repo email phoneNumber).2.1 root).head? = some x →
        x.id = root ∧ x.linkPrecedence = .primary ∧
        (∀ s, x.email = some s → s ≠ "" → resp.emails.head? = some s) ∧
        (∀ s, x.phoneNumber = some s → s ≠ "" → resp.phoneNumbers.head? = some s)) := by
  obtain ⟨root, hmin⟩ := exists_min_root hwf hm
  obtain ⟨p, hp, hpid, hpp⟩ := min_root_is_primary hwf hmin
  have hres := resolve_nonempty_eq hv hm hmin
  set s2 := if shouldCreateNewContact email phoneNumber (clusterOf repo root)
            then repo ++ [newSecondary repo email phoneNumber root] else repo with hs2
  have hwf2 : WF s2 := by
    rw [hs2]
    split
    · exact WF_append_newSecondary hwf email phoneNumber hp hpid hpp
    · exact hwf
  have hp2 : p ∈ s2 := by
    rw [hs2]
    split
    · exact List.mem_append_left _ hp
    · exact hp
  obtain ⟨h1, h2, h3, h4, h5, h6⟩ := assembleResponse_spec (clusterOf s2 root) root
  refine ⟨root, assembleResponse (clusterOf s2 root) root, ?_, h1, ?_, ?_, ?_, h3, ?_, h5,
    ?_, ?_⟩
  · rw [hres]
  · rw [hres]
    rfl
  · rw [hres]
    rfl
  · intro s
    rw [hres]
    exact h2 s
  · intro s
    rw [hres]
    exact h4 s
  · intro i
    rw [hres]
    exact h6 i
  · intro x hx
    rw [hres] at hx
    have hx2 : (clusterOf s2 root).head? = some x := hx
    obtain ⟨hxid, hxp⟩ := clusterOf_head_primary hwf2 hp2 hpid hpp hx2
    exact ⟨hxid, hxp, fun s hs hne => assembleResponse_head hx2 hs hne,
      fun s hs hne => assembleResponse_head_phone hx2 hs hne⟩

theorem c8_witness :
    WF ([{ id := 1, email := some "a@x.com", phoneNumber := some "111",
           linkPrecedence := .primary, linkedId := none }] : Repo) ∧
    ValidInput (some "a@x.com") (some "222") ∧
    matchedContacts
        ([{ id := 1, email := some "a@x.com", phoneNumber := some "111",
            linkPrecedence := .primary, linkedId := none }] : Repo)
        (some "a@x.com") (some "222") ≠ [] ∧
    ∃ root resp,
      (resolve
          ([{ id := 1, email := some "a@x.com", phoneNumber := some "111",
              linkPrecedence := .primary, linkedId := none }] : Repo)
          (some "a@x.com") (some "222")).1 = .ok resp ∧
      resp.primaryContactId = root ∧
      resp.emails =
        jsSetDedup (truthyStrings
          ((clusterOf
              (resolve
                ([{ id := 1, email := some "a@x.com", phoneNumber := some "111",
                    linkPrecedence := .primary, linkedId := none }] : Repo)
                (some "a@x.com") (some "222")).2.1 root).map Contact.email)) ∧
      resp.phoneNumbers =
        jsSetDedup (truthyStrings
          ((clusterOf
              (resolve
                ([{ id := 1, email := some "a@x.com", phoneNumber := some "111",
                    linkPrecedence := .primary, linkedId := none }] : Repo)
                (some "a@x.com") (some "222")).2.1 root).map Contact.phoneNumber)) ∧
      (∀ s, s ∈ resp.emails ↔
        some s ∈ (clusterOf
            (resolve
              ([{ id := 1, email := some "a@x.com", phoneNumber := some "111",
                  linkPrecedence := .primary, linkedId := none }] : Repo)
              (some "a@x.com") (some "222")).2.1 root).map Contact.email ∧ s ≠ "") ∧
      resp.emails.Nodup ∧
      (∀ s, s ∈ resp.phoneNumbers ↔
        some s ∈ (clusterOf
            (resolve
              ([{ id := 1, email := some "a@x.com", phoneNumber := some "111",
                  linkPrecedence := .primary, linkedId := none }] : Repo)
              (some "a@x.com") (some "222")).2.1 root).map Contact.phoneNumber ∧ s ≠ "") ∧
      resp.phoneNumbers.Nodup ∧
      (∀ i, i ∈ resp.secondaryContactIds ↔
        ∃ c ∈ clusterOf
            (resolve
              ([{ id := 1, email := some "a@x.com", phoneNumber := some "111",
                  linkPrecedence := .primary, linkedId := none }] : Repo)
              (some "a@x.com") (some "222")).2.1 root,
          c.id = i ∧ c.linkPrecedence = .secondary) ∧
      (∀ x, (clusterOf
            (resolve
              ([{ id := 1, email := some "a@x.com", phoneNumber := some "111",
                  linkPrecedence := .primary, linkedId := none }] : Repo)
              (some "a@x.com") (some "222")).2.1 root).head? = some x →
        x.id = root ∧ x.linkPrecedence = .primary ∧
        (∀ s, x.email = some s → s ≠ "" → resp.emails.head? = some s) ∧
        (∀ s, x.phoneNumber = some s → s ≠ "" → resp.phoneNumbers.head? = some s)) :=
  ⟨by decide, Or.inl (by decide), by decide,
    c8_response_assembly
      ([{ id := 1, email := some "a@x.com", phoneNumber := some "111",
          linkPrecedence := .primary, linkedId := none }] : Repo)
      (by decide) (Or.inl (by decide)) (by decide)⟩

theorem jsSetDedup_truthyStrings_single (o : Option String) :
    jsSetDedup (truthyStrings [o]) = suppliedList o := by
  cases o with
  | none => rfl
  | some s =>
    by_cases hs : s = ""
    · subst hs
      rfl
    · have hsb : (s != "") = true := by simpa using hs
      simp [truthyStrings, suppliedList, truthy, jsSetDedup, Option.filter, hsb, hs,
        List.filterMap_cons]

/-- The Step-6 assembly over the one-row cluster of a fresh primary equals
the Step-2 response. -/
theorem assembleResponse_single_primary (repo : Repo) (email phoneNumber : Option String) :
    assembleResponse [newPrimary repo email phoneNumber] (nextId repo) =
      { primaryContactId := nextId repo
        emails := suppliedList email
        phoneNumbers := suppliedList phoneNumber
        secondaryContactIds := [] } := by
  unfold assembleResponse
  congr 1
  · exact jsSetDedup_truthyStrings_single email
  · exact jsSetDedup_truthyStrings_single phoneNumber

/-- C4: a second call with the identical input against the state produced
by the first call returns the identical outcome, leaves the state
untouched, and performs only reads (4 reads, 0 writes). -/
theorem c4_idempotent (repo : Repo) {email phoneNumber : Option String}
    (hwf : WF repo) (hv : ValidInput email phoneNumber) :
    resolve (resolve repo email phoneNumber).2.1 email phoneNumber =
      ((resolve repo email phoneNumber).1, (resolve repo email phoneNumber).2.1,
       ⟨4, 0⟩) := by
  by_cases hm : matchedContacts repo email phoneNumber = []
  · -- first call took the Step-2 (create primary) path
    have hres := resolve_nomatch_eq hv hm
    have hq2 : matchesQuery email phoneNumber (newPrimary repo email phoneNumber) = true :=
      matchesQuery_self rfl rfl hv
    have hmatch2 : matchedContacts (repo ++ [newPrimary repo email phoneNumber])
        email phoneNumber = [newPrimary repo email phoneNumber] := by
      rw [matchedContacts_append_sing _ _ _ _ hq2, hm, List.nil_append]
    have hm2 : matchedContacts (repo ++ [newPrimary repo email phoneNumber])
        email phoneNumber ≠ [] := by
      rw [hmatch2]
      exact List.cons_ne_nil _ _
    have hids2 : allLinkedIds (repo ++ [newPrimary repo email phoneNumber])
        email phoneNumber = [nextId repo] := by
      unfold allLinkedIds
      rw [hmatch2]
      simp [rootCandidate, newPrimary, Option.filter, nextId]
    have hmin2 : (allLinkedIds (repo ++ [newPrimary repo email phoneNumber])
        email phoneNumber).min? = some (nextId repo) := by
      rw [hids2]
      rfl
    have hclu : clusterOf (repo ++ [newPrimary repo email phoneNumber]) (nextId repo) =
        [newPrimary repo email phoneNumber] := by
      rw [clusterOf_append_sing_mem _ _ _ (by simp [inCluster, newPrimary]),
          clusterOf_nextId_nil hwf, List.nil_append]
    have hsc2 : shouldCreateNewContact email phoneNumber
        (clusterOf (repo ++ [newPrimary repo email phoneNumber]) (nextId repo)) = false := by
      rw [hclu]
      exact shouldCreate_false_of_mem (List.mem_singleton_self _) rfl rfl
    rw [hres]
    rw [resolve_nonempty_eq hv hm2 hmin2]
    simp only [hsc2, Bool.false_eq_true, if_false]
    rw [hclu, assembleResponse_single_primary]
  · -- first call took the Steps-3-6 path
    obtain ⟨root, hmin⟩ := exists_min_root hwf hm
    obtain ⟨p, hp, hpid, hpp⟩ := min_root_is_primary hwf hmin
    have hres := resolve_nonempty_eq hv hm hmin
    have hrpos : 0 < root :=
      mem_allLinkedIds_pos (List.min?_mem (fun a b => min_choice a b) hmin)
    by_cases hsc : shouldCreateNewContact email phoneNumber (clusterOf repo root) = true
    · -- Step 5 wrote a secondary row
      have hstate : (resolve repo email phoneNumber).2.1 =
          repo ++ [newSecondary repo email phoneNumber root] := by
        rw [hres]
        simp [hsc]
      have hresult : (resolve repo email phoneNumber).1 =
          .ok (assembleResponse
            (clusterOf (repo ++ [newSecondary repo email phoneNumber root]) root) root) := by
        rw [hres]
        simp [hsc]
      have hq2 : matchesQuery email phoneNumber
          (newSecondary repo email phoneNumber root) = true :=
        matchesQuery_self rfl rfl hv
      have hm2 : matchedContacts (repo ++ [newSecondary repo email phoneNumber root])
          email phoneNumber ≠ [] := by
        rw [matchedContacts_append_sing _ _ _ _ hq2]
        simp
      have hrne : (root != 0) = true := by
        simpa using Nat.pos_iff_ne_zero.mp hrpos
      have hids2 : allLinkedIds (repo ++ [newSecondary repo email phoneNumber root])
          email phoneNumber = allLinkedIds repo email phoneNumber ++ [root] := by
        rw [allLinkedIds_append_sing _ _ _ _ hq2]
        simp [rootCandidate, newSecondary, Option.filter, hrne]
      have hmin2 : (allLinkedIds (repo ++ [newSecondary repo email phoneNumber root])
          email phoneNumber).min? = some root := by
        rw [hids2]
        exact min?_append_self hmin
      have hsc2 : shouldCreateNewContact email phoneNumber
          (clusterOf (repo ++ [newSecondary repo email phoneNumber root]) root) = false := by
        refine shouldCreate_false_of_mem (c := newSecondary repo email phoneNumber root)
          ?_ rfl rfl
        refine mem_clusterOf.mpr ⟨List.mem_append_right _ (List.mem_singleton_self _), ?_⟩
        simp [inCluster, newSecondary]
      rw [hstate, hresult]
      rw [resolve_nonempty_eq hv hm2 hmin2]
      simp only [hsc2, Bool.false_eq_true, if_false]
    · -- Step 5 wrote nothing: the second call is the literal same computation
      rw [Bool.not_eq_true] at hsc
      have hstate : (resolve repo email phoneNumber).2.1 = repo := by
        rw [hres]
        simp [hsc]
      have hresult : (resolve repo email phoneNumber).1 =
          .ok (assembleResponse (clusterOf repo root) root) := by
        rw [hres]
        simp [hsc]
      rw [hstate, hresult, resolve_nonempty_eq hv hm hmin]
      simp only [hsc, Bool.false_eq_true, if_false]

theorem c4_witness :
    WF ([{ id := 1, email := some "a@x.com", phoneNumber := some "111",
           linkPrecedence := .primary, linkedId := none }] : Repo) ∧
    ValidInput (some "a@x.com") (some "222") ∧
    resolve
        (resolve
          ([{ id := 1, email := some "a@x.com", phoneNumber := some "111",
              linkPrecedence := .primary, linkedId := none }] : Repo)
          (some "a@x.com") (some "222")).2.1 (some "a@x.com") (some "222") =
      ((resolve
          ([{ id := 1, email := some "a@x.com", phoneNumber := some "111",
              linkPrecedence := .primary, linkedId := none }] : Repo)
          (some "a@x.com") (some "222")).1,
       (resolve
          ([{ id := 1, email := some "a@x.com", phoneNumber := some "111",
              linkPrecedence := .primary, linkedId := none }] : Repo)
          (some "a@x.com") (some "222")).2.1,
       ⟨4, 0⟩) :=
  ⟨by decide, Or.inl (by decide),
    c4_idempotent
      ([{ id := 1, email := some "a@x.com", phoneNumber := some "111",
          linkPrecedence := .primary, linkedId := none }] : Repo)
      (by decide) (Or.inl (by decide))⟩

end Bitespeed
